import Mathlib

/-!
Shallow embedding of `src/sma_strategy.py` (class `SmaStrategy`), the SMA
crossover trade-signal detector.

Modelling conventions:
* Closing prices are rationals (`ℚ`), so rolling means are exact.
* The bar data for the configured symbol is `Option (List ℚ)`:
  `none` models `bar_dict.get(symbol)` returning `None` or a frame without a
  usable close column; `some close` is the ordered close-price history.
* `bars['close'].rolling(window=w).mean()` produces a series whose element at
  index `i` is the mean of the `w` prices ending at `i`, and is NaN (undefined)
  when fewer than `w` observations exist up to `i` (pandas defaults
  `min_periods` to the window size).  `iloc[-1]` of that series is
  `meanLast w close` and `iloc[-2]` is `meanLast w close.dropLast`; NaN is
  modelled as `none`.  A non-positive window never yields a numeric value.
* The `try/except` around the two rolling computations is modelled with
  `Except String`: `evaluateWithMAs` is the continuation after the try block
  and maps any `Except.error` to no decision, mirroring the `except ... return`.
* `context.buy` / `context.sell` calls are modelled as the returned decision
  value; `position.quantity if position else 0` is the signed integer
  `current_quantity` argument.
-/

namespace SmaStrategy

/-- A trade instruction emitted by the strategy: the order side, the symbol
and the share quantity passed to `context.buy` / `context.sell`. -/
inductive TradeDecision where
  | buy (symbol : String) (quantity : Nat)
  | sell (symbol : String) (quantity : Nat)
deriving DecidableEq, Repr

/-- The strategy parameters set in `SmaStrategy.initialize` and read by
`on_bar`; fixed for the life of the strategy instance. -/
structure Params where
  symbol : String
  fast_period : Nat
  slow_period : Nat
  trade_size : Nat
deriving DecidableEq, Repr

/-- The concrete parameter values assigned in the source's `self.parameters`
dictionary. -/
def defaultParameters : Params :=
  { symbol := "AAPL", fast_period := 10, slow_period := 30, trade_size := 100 }

/-- The last `n` elements of a list (all of it when `n` exceeds the length). -/
def lastN (n : Nat) (xs : List ℚ) : List ℚ := xs.drop (xs.length - n)

/-- The trailing mean over the last `w` elements: the final value of
`rolling(window=w).mean()`.  `none` models NaN (fewer than `w` observations)
and a non-positive window. -/
def meanLast (w : Nat) (xs : List ℚ) : Option ℚ :=
  if w = 0 ∨ xs.length < w then none
  else some ((lastN w xs).sum / (w : ℚ))

/-- The four moving-average values read from the two rolling series:
`((fast_prev, fast_curr), (slow_prev, slow_curr))` where `prev` is `iloc[-2]`
and `curr` is `iloc[-1]`. -/
abbrev MAValues := (Option ℚ × Option ℚ) × (Option ℚ × Option ℚ)

/-- The body of the `try` block of `on_bar`: computes the last two values of
the fast and slow rolling-mean series.  The `Except` layer carries any
arithmetic fault the computation could raise; on the rational-number price
model the computation itself always succeeds. -/
def computeMAs (fast_period slow_period : Nat) (close : List ℚ) :
    Except String MAValues :=
  Except.ok ((meanLast fast_period close.dropLast, meanLast fast_period close),
             (meanLast slow_period close.dropLast, meanLast slow_period close))

/-- The continuation of `on_bar` after the `try` block: any caught exception
(`Except.error`) returns no decision; otherwise check the two-values and
NaN guards and apply the crossover decision rule. -/
def evaluateWithMAs (ps : Params) (close : List ℚ) (current_quantity : Int)
    (mas : Except String MAValues) : Option TradeDecision :=
  match mas with
  | .error _ => none
  | .ok ((fastPrev, fastCurr), (slowPrev, slowCurr)) =>
    if close.length < 2 then none
    else
      match fastPrev, fastCurr, slowPrev, slowCurr with
      | some fast_ma_prev, some fast_ma_curr, some slow_ma_prev,
        some slow_ma_curr =>
        if fast_ma_prev ≤ slow_ma_prev ∧ slow_ma_curr < fast_ma_curr then
          if current_quantity ≤ 0 then
            some (.buy ps.symbol ps.trade_size)
          else none
        else if slow_ma_prev ≤ fast_ma_prev ∧ fast_ma_curr < slow_ma_curr then
          if 0 < current_quantity then
            some (.sell ps.symbol ps.trade_size)
          else none
        else none
      | _, _, _, _ => none

/-- The decision logic of `SmaStrategy.on_bar` for one invocation:
guards for missing/empty data and insufficient history, the (modelled)
`try/except` around the rolling means, the two-values/NaN guard, and the
crossover rule reading `current_quantity`. -/
def evaluate (ps : Params) (history : Option (List ℚ))
    (current_quantity : Int) : Option TradeDecision :=
  match history with
  | none => none
  | some close =>
    if close = [] then none
    else if close.length < ps.slow_period then none
    else evaluateWithMAs ps close current_quantity
        (computeMAs ps.fast_period ps.slow_period close)

/-- One `on_bar` call as a state transformer: it returns the decision and the
strategy state afterwards.  The only strategy-owned state is `self.parameters`,
which `on_bar` never mutates. -/
def on_bar (ps : Params) (history : Option (List ℚ)) (current_quantity : Int) :
    Params × Option TradeDecision :=
  (ps, evaluate ps history current_quantity)

/-- `N = max(fast_period, slow_period)`, the window bound named by the spec. -/
def recentWindow (ps : Params) : Nat := max ps.fast_period ps.slow_period


theorem evaluate_some_eq (ps : Params) (close : List ℚ) (q : Int)
    (hne : close ≠ []) (hlen : ¬ close.length < ps.slow_period) :
    evaluate ps (some close) q =
      evaluateWithMAs ps close q
        (computeMAs ps.fast_period ps.slow_period close) := by
  simp only [evaluate]
  rw [if_neg hne, if_neg hlen]

theorem evaluateWithMAs_none_of_undefined (ps : Params) (close : List ℚ)
    (q : Int) (a b c d : Option ℚ)
    (h : a = none ∨ b = none ∨ c = none ∨ d = none) :
    evaluateWithMAs ps close q (Except.ok ((a, b), (c, d))) = none := by
  unfold evaluateWithMAs
  rcases a with _ | x <;> rcases b with _ | y <;> rcases c with _ | z <;>
    rcases d with _ | w <;> simp_all

theorem length_lastN (n : Nat) (xs : List ℚ) (h : n ≤ xs.length) :
    (lastN n xs).length = n := by
  unfold lastN
  rw [List.length_drop]
  omega

theorem lastN_lastN (w n : Nat) (xs : List ℚ) (hw : w ≤ n)
    (hn : n ≤ xs.length) :
    lastN w (lastN n xs) = lastN w xs := by
  unfold lastN
  rw [List.length_drop, List.drop_drop]
  congr 1
  omega

theorem meanLast_congr (w n : Nat) (A B : List ℚ) (hw : w ≤ n)
    (hA : n ≤ A.length) (hB : n ≤ B.length) (h : lastN n A = lastN n B) :
    meanLast w A = meanLast w B := by
  unfold meanLast
  rcases Nat.eq_zero_or_pos w with rfl | hw0
  · simp
  · rw [if_neg (by omega), if_neg (by omega)]
    have hlast : lastN w A = lastN w B := by
      rw [← lastN_lastN w n A hw hA, ← lastN_lastN w n B hw hB, h]
    rw [hlast]

theorem lastN_dropLast (n : Nat) (xs : List ℚ) (h1 : 1 ≤ n)
    (h : n ≤ xs.length) :
    lastN (n - 1) xs.dropLast = (lastN n xs).dropLast := by
  unfold lastN
  rw [List.length_dropLast, List.dropLast_eq_take xs,
    List.dropLast_eq_take (xs.drop (xs.length - n)), List.length_drop,
    List.take_drop]
  have e1 : xs.length - n + (xs.length - (xs.length - n) - 1) = xs.length - 1 := by
    omega
  have e2 : xs.length - 1 - (n - 1) = xs.length - n := by omega
  rw [e1, e2]

theorem dropLast_replicate (n : Nat) (c : ℚ) :
    (List.replicate n c).dropLast = List.replicate (n - 1) c := by
  rw [List.dropLast_eq_take, List.length_replicate, List.take_replicate]
  congr 1
  omega

theorem meanLast_replicate (w n : Nat) (c : ℚ) :
    meanLast w (List.replicate n c) = if w = 0 ∨ n < w then none else some c := by
  unfold meanLast lastN
  rw [List.length_replicate]
  by_cases h : w = 0 ∨ n < w
  · rw [if_pos h, if_pos h]
  · rw [if_neg h, if_neg h, List.drop_replicate]
    push_neg at h
    have hw : w ≠ 0 := h.1
    have hn : n - (n - w) = w := by omega
    rw [hn, List.sum_replicate, nsmul_eq_mul,
      mul_div_cancel_left₀ c (by exact_mod_cast hw)]


/-- C1: when all guards pass and the fast average crosses above the slow
average (`fast_prev <= slow_prev` and `fast_curr > slow_curr`), `evaluate`
returns `BUY(symbol, trade_size)` when `current_quantity <= 0` and no decision
when `current_quantity > 0`. -/
theorem c1_crossover_up_buys_when_not_long (ps : Params) (close : List ℚ)
    (q : Int) (fast_prev fast_curr slow_prev slow_curr : ℚ)
    (hlen : ps.slow_period ≤ close.length)
    (h2 : 2 ≤ close.length)
    (hfp : meanLast ps.fast_period close.dropLast = some fast_prev)
    (hfc : meanLast ps.fast_period close = some fast_curr)
    (hsp : meanLast ps.slow_period close.dropLast = some slow_prev)
    (hsc : meanLast ps.slow_period close = some slow_curr)
    (hup1 : fast_prev ≤ slow_prev) (hup2 : slow_curr < fast_curr) :
    evaluate ps (some close) q =
      if q ≤ 0 then some (.buy ps.symbol ps.trade_size) else none := by
  have hne : close ≠ [] := by
    intro h
    rw [h] at h2
    simp at h2
  rw [evaluate_some_eq ps close q hne (by omega)]
  unfold computeMAs
  rw [hfp, hfc, hsp, hsc]
  simp only [evaluateWithMAs]
  rw [if_neg (show ¬ close.length < 2 by omega), if_pos ⟨hup1, hup2⟩]

/-- C1 witness. -/
theorem c1_witness :
    evaluate ⟨"AAPL", 2, 3, 100⟩ (some [10, 10, 10, 12]) 0 =
      if (0 : Int) ≤ 0 then some (.buy "AAPL" 100) else none :=
  c1_crossover_up_buys_when_not_long ⟨"AAPL", 2, 3, 100⟩ [10, 10, 10, 12] 0
    10 11 10 (32 / 3)
    (by norm_num) (by norm_num)
    (by norm_num [meanLast, lastN]) (by norm_num [meanLast, lastN])
    (by norm_num [meanLast, lastN]) (by norm_num [meanLast, lastN])
    (by norm_num) (by norm_num)


/-- C2: when all guards pass and the fast average crosses below the slow
average (`fast_prev >= slow_prev` and `fast_curr < slow_curr`), `evaluate`
returns `SELL(symbol, trade_size)` when `current_quantity > 0` and no decision
when `current_quantity <= 0`. -/
theorem c2_crossover_down_sells_when_long (ps : Params) (close : List ℚ)
    (q : Int) (fast_prev fast_curr slow_prev slow_curr : ℚ)
    (hlen : ps.slow_period ≤ close.length)
    (h2 : 2 ≤ close.length)
    (hfp : meanLast ps.fast_period close.dropLast = some fast_prev)
    (hfc : meanLast ps.fast_period close = some fast_curr)
    (hsp : meanLast ps.slow_period close.dropLast = some slow_prev)
    (hsc : meanLast ps.slow_period close = some slow_curr)
    (hdn1 : slow_prev ≤ fast_prev) (hdn2 : fast_curr < slow_curr) :
    evaluate ps (some close) q =
      if 0 < q then some (.sell ps.symbol ps.trade_size) else none := by
  have hne : close ≠ [] := by
    intro h
    rw [h] at h2
    simp at h2
  rw [evaluate_some_eq ps close q hne (by omega)]
  unfold computeMAs
  rw [hfp, hfc, hsp, hsc]
  simp only [evaluateWithMAs]
  rw [if_neg (show ¬ close.length < 2 by omega),
    if_neg (show ¬ (fast_prev ≤ slow_prev ∧ slow_curr < fast_curr) from
      fun hc => absurd hc.2 (not_lt.mpr (le_of_lt hdn2))),
    if_pos ⟨hdn1, hdn2⟩]

/-- C2 witness. -/
theorem c2_witness :
    evaluate ⟨"AAPL", 2, 3, 100⟩ (some [12, 12, 12, 9]) 100 =
      if (0 : Int) < 100 then some (.sell "AAPL" 100) else none :=
  c2_crossover_down_sells_when_long ⟨"AAPL", 2, 3, 100⟩ [12, 12, 12, 9] 100
    12 (21 / 2) 12 11
    (by norm_num) (by norm_num)
    (by norm_num [meanLast, lastN]) (by norm_num [meanLast, lastN])
    (by norm_num [meanLast, lastN]) (by norm_num [meanLast, lastN])
    (by norm_num) (by norm_num)

/-- C3: with missing bar data, or any history shorter than the slow period
(the empty history included), `evaluate` returns no decision. -/
theorem c3_short_history_no_decision (ps : Params)
    (history : Option (List ℚ)) (q : Int)
    (h : ∀ close, history = some close → close.length < ps.slow_period) :
    evaluate ps history q = none := by
  cases history with
  | none => rfl
  | some close =>
    have hlt := h close rfl
    by_cases hne : close = []
    · simp [evaluate, hne]
    · simp [evaluate, hne, hlt]

/-- C3 witness. -/
theorem c3_witness : evaluate defaultParameters (some [1, 2, 3]) 5 = none :=
  c3_short_history_no_decision defaultParameters (some [1, 2, 3]) 5
    (by
      intro close hc
      injection hc with hc
      rw [← hc]
      norm_num [defaultParameters])

/-- C4: with `fast_period <= slow_period`, a history of length exactly
`slow_period` yields no decision (the previous slow-window mean is undefined);
and in general, whenever any of the four required moving-average values is
undefined, `evaluate` returns no decision. -/
theorem c4_undefined_value_no_decision (ps : Params) (close : List ℚ)
    (q : Int) (hps : ps.fast_period ≤ ps.slow_period) :
    (close.length = ps.slow_period → evaluate ps (some close) q = none) ∧
    ((meanLast ps.fast_period close.dropLast = none ∨
      meanLast ps.fast_period close = none ∨
      meanLast ps.slow_period close.dropLast = none ∨
      meanLast ps.slow_period close = none) →
      evaluate ps (some close) q = none) := by
  have key : (meanLast ps.fast_period close.dropLast = none ∨
      meanLast ps.fast_period close = none ∨
      meanLast ps.slow_period close.dropLast = none ∨
      meanLast ps.slow_period close = none) →
      evaluate ps (some close) q = none := by
    intro hnd
    by_cases hne : close = []
    · simp [evaluate, hne]
    · by_cases hlen : close.length < ps.slow_period
      · simp [evaluate, hne, hlen]
      · rw [evaluate_some_eq ps close q hne hlen]
        unfold computeMAs
        exact evaluateWithMAs_none_of_undefined _ _ _ _ _ _ _ hnd
  refine ⟨?_, key⟩
  intro hl
  apply key
  right; right; left
  unfold meanLast
  rw [if_pos]
  rcases Nat.eq_zero_or_pos ps.slow_period with h0 | hpos
  · left
    exact h0
  · right
    rw [List.length_dropLast]
    omega

/-- C4 witness. -/
theorem c4_witness :
    (([1, 2, 3] : List ℚ).length = (3 : Nat) → evaluate ⟨"AAPL", 2, 3, 100⟩ (some [1, 2, 3]) 0 = none) ∧
    ((meanLast 2 ([1, 2, 3] : List ℚ).dropLast = none ∨
      meanLast 2 ([1, 2, 3] : List ℚ) = none ∨
      meanLast 3 ([1, 2, 3] : List ℚ).dropLast = none ∨
      meanLast 3 ([1, 2, 3] : List ℚ) = none) →
      evaluate ⟨"AAPL", 2, 3, 100⟩ (some [1, 2, 3]) 0 = none) :=
  c4_undefined_value_no_decision ⟨"AAPL", 2, 3, 100⟩ [1, 2, 3] 0 (by norm_num)


/-- C8: `on_bar` is deterministic and stateless: the strategy state after a
call is unchanged, so a second call with identical inputs returns the
identical decision. -/
theorem c8_deterministic (ps : Params) (history : Option (List ℚ))
    (q : Int) :
    (on_bar (on_bar ps history q).1 history q).2 = (on_bar ps history q).2 ∧
    (on_bar ps history q).1 = ps :=
  ⟨rfl, rfl⟩

/-- C9: any fault raised inside the (modelled) try block around the two
rolling-mean computations is converted to no decision by the continuation of
`evaluate`; no exception escapes. -/
theorem c9_fault_converted_to_no_decision (ps : Params) (close : List ℚ)
    (q : Int) (msg : String) :
    evaluateWithMAs ps close q (Except.error msg) = none := rfl

/-- Helper: any decision produced from a moving-average tuple carries the
configured symbol and trade size. -/
theorem evaluateWithMAs_some_shape (ps : Params) (close : List ℚ) (q : Int)
    (mas : Except String MAValues) (d : TradeDecision)
    (h : evaluateWithMAs ps close q mas = some d) :
    d = .buy ps.symbol ps.trade_size ∨ d = .sell ps.symbol ps.trade_size := by
  unfold evaluateWithMAs at h
  rcases mas with msg | ⟨⟨a, b⟩, c, e⟩
  · simp at h
  · rcases a with _ | x <;> rcases b with _ | y <;> rcases c with _ | z <;>
      rcases e with _ | w <;> split_ifs at h <;> simp_all <;>
      first
      | tauto
      | omega

/-- C10: every decision `evaluate` emits is exactly `BUY(symbol, trade_size)`
or `SELL(symbol, trade_size)`: the quantity is the configured trade size, not
the held quantity. -/
theorem c10_decision_carries_trade_size (ps : Params)
    (history : Option (List ℚ)) (q : Int) (d : TradeDecision)
    (h : evaluate ps history q = some d) :
    d = .buy ps.symbol ps.trade_size ∨ d = .sell ps.symbol ps.trade_size := by
  cases history with
  | none => exact absurd h (by simp [evaluate])
  | some close =>
    by_cases hne : close = []
    · rw [hne] at h
      exact absurd h (by simp [evaluate])
    · by_cases hlen : close.length < ps.slow_period
      · rw [evaluate, if_neg hne, if_pos hlen] at h
        exact absurd h (by simp)
      · rw [evaluate_some_eq ps close q hne hlen] at h
        exact evaluateWithMAs_some_shape ps close q _ d h

/-- C10 witness. -/
theorem c10_witness :
    TradeDecision.buy "AAPL" 100 = .buy "AAPL" 100 ∨
    TradeDecision.buy "AAPL" 100 = .sell "AAPL" 100 :=
  c10_decision_carries_trade_size ⟨"AAPL", 2, 3, 100⟩ (some [10, 10, 10, 12]) 0
    (.buy "AAPL" 100)
    (by norm_num [evaluate, evaluateWithMAs, computeMAs, meanLast, lastN,
      List.cons_ne_nil])


/-- C6: with fast period 2, slow period 3 and quantity 0, evaluating the
successive initial segments of the price series [10, 10, 10, 12, 14] emits
exactly one BUY, at [10, 10, 10, 12]. -/
theorem c6_scenario_single_buy :
    evaluate ⟨"AAPL", 2, 3, 100⟩ (some []) 0 = none ∧
    evaluate ⟨"AAPL", 2, 3, 100⟩ (some [10]) 0 = none ∧
    evaluate ⟨"AAPL", 2, 3, 100⟩ (some [10, 10]) 0 = none ∧
    evaluate ⟨"AAPL", 2, 3, 100⟩ (some [10, 10, 10]) 0 = none ∧
    evaluate ⟨"AAPL", 2, 3, 100⟩ (some [10, 10, 10, 12]) 0 =
      some (.buy "AAPL" 100) ∧
    evaluate ⟨"AAPL", 2, 3, 100⟩ (some [10, 10, 10, 12, 14]) 0 = none := by
  refine ⟨rfl, ?_, ?_, ?_, ?_, ?_⟩ <;>
    norm_num [evaluate, evaluateWithMAs, computeMAs, meanLast, lastN,
      List.cons_ne_nil]

/-- C7: on a constant price history the fast and slow averages coincide
whenever defined, so `evaluate` never emits a decision, for any window
lengths and any position. -/
theorem c7_flat_series_no_decision (ps : Params) (q : Int) (n : Nat)
    (c : ℚ) :
    evaluate ps (some (List.replicate n c)) q = none := by
  rcases Nat.eq_zero_or_pos n with rfl | hn
  · simp [evaluate]
  · have hne : List.replicate n c ≠ [] := by
      intro h
      have hl := congrArg List.length h
      rw [List.length_replicate] at hl
      simp at hl
      omega
    by_cases hlen : (List.replicate n c).length < ps.slow_period
    · rw [List.length_replicate] at hlen
      simp [evaluate, hne, hlen]
    · rw [evaluate_some_eq _ _ _ hne hlen]
      unfold computeMAs
      rw [dropLast_replicate, meanLast_replicate, meanLast_replicate,
        meanLast_replicate, meanLast_replicate]
      by_cases hf : ps.fast_period = 0 ∨ n - 1 < ps.fast_period
      · rw [if_pos hf]
        exact evaluateWithMAs_none_of_undefined _ _ _ _ _ _ _ (Or.inl rfl)
      · by_cases hs : ps.slow_period = 0 ∨ n - 1 < ps.slow_period
        · rw [if_pos hs]
          exact evaluateWithMAs_none_of_undefined _ _ _ _ _ _ _
            (Or.inr (Or.inr (Or.inl rfl)))
        · push_neg at hf hs
          rw [if_neg (by omega), if_neg (by omega), if_neg (by omega),
            if_neg (by omega)]
          simp [evaluateWithMAs, lt_irrefl]


/-- C5 counterexample: with fast period 1 and slow period 2 (so
`N = max(fast, slow) = 2`), the histories [0, 2] and [0, 0, 2] agree on their
last `N` elements and both have length at least the slow period, yet
`evaluate` returns no decision on the first and a BUY on the second: the
previous slow-window mean needs the (N+1)-th most recent observation. -/
theorem c5_counterexample :
    lastN (recentWindow ⟨"AAPL", 1, 2, 100⟩) [0, 2] =
      lastN (recentWindow ⟨"AAPL", 1, 2, 100⟩) [0, 0, 2] ∧
    (⟨"AAPL", 1, 2, 100⟩ : Params).slow_period ≤ ([0, 2] : List ℚ).length ∧
    (⟨"AAPL", 1, 2, 100⟩ : Params).slow_period ≤ ([0, 0, 2] : List ℚ).length ∧
    evaluate ⟨"AAPL", 1, 2, 100⟩ (some [0, 2]) 0 ≠
      evaluate ⟨"AAPL", 1, 2, 100⟩ (some [0, 0, 2]) 0 := by
  refine ⟨?_, ?_, ?_, ?_⟩
  · norm_num [lastN, recentWindow]
  · norm_num
  · norm_num
  · have h1 : evaluate ⟨"AAPL", 1, 2, 100⟩ (some [0, 2]) 0 = none := by
      norm_num [evaluate, evaluateWithMAs, computeMAs, meanLast, lastN,
        List.cons_ne_nil]
    have h2 : evaluate ⟨"AAPL", 1, 2, 100⟩ (some [0, 0, 2]) 0 =
        some (.buy "AAPL" 100) := by
      norm_num [evaluate, evaluateWithMAs, computeMAs, meanLast, lastN,
        List.cons_ne_nil]
    rw [h1, h2]
    exact fun h => Option.noConfusion h

/-- C5 (amended): the decision depends only on the most recent
`max(fast_period, slow_period) + 1` observations: two histories that agree on
their last `N + 1` elements, both of length at least `N + 1`, evaluate to the
same result. -/
theorem c5_depends_on_recent_window (ps : Params) (q : Int) (A B : List ℚ)
    (hA : recentWindow ps + 1 ≤ A.length)
    (hB : recentWindow ps + 1 ≤ B.length)
    (hagree : lastN (recentWindow ps + 1) A = lastN (recentWindow ps + 1) B) :
    evaluate ps (some A) q = evaluate ps (some B) q := by
  have hfpN : ps.fast_period ≤ recentWindow ps := le_max_left _ _
  have hspN : ps.slow_period ≤ recentWindow ps := le_max_right _ _
  have hneA : A ≠ [] := by
    intro h
    rw [h] at hA
    simp at hA
  have hneB : B ≠ [] := by
    intro h
    rw [h] at hB
    simp at hB
  have hlenA : ¬ A.length < ps.slow_period := by omega
  have hlenB : ¬ B.length < ps.slow_period := by omega
  rw [evaluate_some_eq ps A q hneA hlenA, evaluate_some_eq ps B q hneB hlenB]
  have hdrop : lastN (recentWindow ps) A.dropLast =
      lastN (recentWindow ps) B.dropLast := by
    have eA := lastN_dropLast (recentWindow ps + 1) A (by omega) hA
    have eB := lastN_dropLast (recentWindow ps + 1) B (by omega) hB
    rw [Nat.add_sub_cancel] at eA eB
    rw [eA, eB, hagree]
  have hdlA : recentWindow ps ≤ A.dropLast.length := by
    rw [List.length_dropLast]
    omega
  have hdlB : recentWindow ps ≤ B.dropLast.length := by
    rw [List.length_dropLast]
    omega
  have hfc : meanLast ps.fast_period A = meanLast ps.fast_period B :=
    meanLast_congr _ (recentWindow ps + 1) A B (by omega) hA hB hagree
  have hsc : meanLast ps.slow_period A = meanLast ps.slow_period B :=
    meanLast_congr _ (recentWindow ps + 1) A B (by omega) hA hB hagree
  have hfp : meanLast ps.fast_period A.dropLast =
      meanLast ps.fast_period B.dropLast :=
    meanLast_congr _ (recentWindow ps) _ _ hfpN hdlA hdlB hdrop
  have hsp : meanLast ps.slow_period A.dropLast =
      meanLast ps.slow_period B.dropLast :=
    meanLast_congr _ (recentWindow ps) _ _ hspN hdlA hdlB hdrop
  unfold computeMAs
  rw [hfp, hfc, hsp, hsc]
  rcases Nat.eq_zero_or_pos (recentWindow ps) with h0 | hNpos
  · have hf0 : ps.fast_period = 0 := by omega
    have hmB : meanLast ps.fast_period B.dropLast = none := by
      rw [hf0]
      simp [meanLast]
    rw [evaluateWithMAs_none_of_undefined _ _ _ _ _ _ _ (Or.inl hmB),
      evaluateWithMAs_none_of_undefined _ _ _ _ _ _ _ (Or.inl hmB)]
  · simp only [evaluateWithMAs]
    rw [if_neg (show ¬ A.length < 2 by omega),
      if_neg (show ¬ B.length < 2 by omega)]

/-- C5 witness. -/
theorem c5_witness :
    evaluate ⟨"AAPL", 1, 2, 100⟩ (some [7, 0, 0, 2]) 0 =
      evaluate ⟨"AAPL", 1, 2, 100⟩ (some [0, 0, 2]) 0 :=
  c5_depends_on_recent_window ⟨"AAPL", 1, 2, 100⟩ 0 [7, 0, 0, 2] [0, 0, 2]
    (by norm_num [recentWindow]) (by norm_num [recentWindow])
    (by norm_num [recentWindow, lastN])

end SmaStrategy
